import Mathlib

/-!
# Verification of the planner/orchestration engine (`sources/agents/planner_agent.py`)

This file gives a shallow embedding, in Lean 4, of the plan-extraction,
plan-negotiation, replanning and orchestration code of `PlannerAgent`
(`sources/agents/planner_agent.py`), and proves or refutes the frozen claims
about it.

Modelling conventions:
* Python strings are Lean `String`s; all character-level manipulation is done
  over `String.data : List Char` with structurally recursive functions, so that
  every definition evaluates inside the kernel.
* Python dicts keyed by strings are association lists with first-match lookup;
  insertion overwrites in place the way `dict` assignment does.
* The LLM collaborator (`self.llm_request`) is an oracle `llm : Nat → String`
  indexed by the global call number.  Prompt strings (the corrective retry
  prompt, the replan directive, `next_task`, the memory pushes) influence only
  the oracle's input and are absorbed by this abstraction; they do not flow
  into any other observable of the engine.
* Code that raises a Python exception is modelled with `Except String`, the
  error string naming the exception.
* `json.loads` / `ast.literal_eval` (Python standard library) are modelled by a
  recursive-descent parser for the JSON / Python-literal fragment the plans
  use: objects, arrays, double- (and for literals single-) quoted strings,
  integer numerals, `true/false/null` (resp. `True/False/None`).  Numeric
  literals are modelled as integers.
-/

/-- Python whitespace for `str.strip()` / JSON inter-token whitespace. -/
def isWsChar (c : Char) : Bool :=
  c = ' ' || c = '\n' || c = '\t' || c = '\r'

/-- `str.strip()` on a character list: drop whitespace from both ends. -/
def pyStripChars (cs : List Char) : List Char :=
  ((cs.dropWhile isWsChar).reverse.dropWhile isWsChar).reverse

/-- `str.strip()`. -/
def pyStripStr (s : String) : String :=
  String.mk (pyStripChars s.data)

/-- `str.lower()` (ASCII, as every capability name used here is ASCII). -/
def pyLowerStr (s : String) : String :=
  String.mk (s.data.map Char.toLower)

/-- Does `pat` occur as a leading segment of `cs`? (helper for substring search). -/
def leadsWith : List Char → List Char → Bool
  | [], _ => true
  | _ :: _, [] => false
  | p :: ps, c :: cs => p = c && leadsWith ps cs

/-- Does `pat` occur anywhere inside `cs`?  Models Python's `pat in s`. -/
def hasSub : List Char → List Char → Bool
  | [], pat => pat.isEmpty
  | c :: cs, pat => leadsWith pat (c :: cs) || hasSub cs pat

/-- Python's `sub in s` substring test. -/
def pyContains (s sub : String) : Bool :=
  hasSub s.data sub.data

/-- One pass of `str.replace(pat, repl)` over a character list (`pat` nonempty:
the two patterns replaced by the code, the fence markers, are nonempty).
`fuel` bounds the recursion; it is instantiated with the text length, which
suffices because every step consumes at least one character. -/
def replaceSub (pat repl : List Char) : Nat → List Char → List Char
  | _, [] => []
  | 0, cs => cs
  | fuel + 1, c :: cs =>
    if !pat.isEmpty && leadsWith pat (c :: cs) then
      repl ++ replaceSub pat repl fuel (List.drop pat.length (c :: cs))
    else
      c :: replaceSub pat repl fuel cs

/-- `str.replace(pat, repl)` (all occurrences, left to right). -/
def pyReplaceStr (s pat repl : String) : String :=
  String.mk (replaceSub pat.data repl.data s.data.length s.data)

/-- `str.split(sep)` over character lists (`sep` nonempty), keeping empty
fields like Python does.  `fuel` is instantiated with the text length. -/
def splitOnSub (sep : List Char) : Nat → List Char → List Char → List (List Char)
  | 0, cs, cur => [cur.reverse ++ cs]
  | fuel + 1, cs, cur =>
    match cs with
    | [] => [cur.reverse]
    | c :: cs' =>
      if leadsWith sep (c :: cs') then
        cur.reverse :: splitOnSub sep fuel (List.drop sep.length (c :: cs')) []
      else
        splitOnSub sep fuel cs' (c :: cur)

/-- `str.split(sep)` for a nonempty separator. -/
def pySplitOn (s sep : String) : List String :=
  (splitOnSub sep.data s.data.length s.data []).map String.mk

/-- Value of a digit string (helper for `int(...)` and numeric literals). -/
def digitsVal (ds : List Char) : Nat :=
  ds.foldl (fun n c => n * 10 + (c.toNat - 48)) 0

/-- Python's `int(s)`: optional surrounding whitespace, optional sign, then
decimal digits; `none` models the `ValueError` that `update_plan` catches.
(Underscore separators inside numerals are not modelled; no claim uses them.) -/
def pyInt? (s : String) : Option Int :=
  match pyStripChars s.data with
  | [] => none
  | c :: ds =>
    if c = '-' then
      if !ds.isEmpty && ds.all Char.isDigit then some (-(Int.ofNat (digitsVal ds))) else none
    else if c = '+' then
      if !ds.isEmpty && ds.all Char.isDigit then some (Int.ofNat (digitsVal ds)) else none
    else if (c :: ds).all Char.isDigit then
      some (Int.ofNat (digitsVal (c :: ds)))
    else none

/-- Values produced by `json.loads` / `ast.literal_eval` on plan payloads. -/
inductive JValue where
  | null
  | bool (b : Bool)
  | num (n : Int)
  | str (s : String)
  | arr (items : List JValue)
  | obj (fields : List (String × JValue))

/-- First-match lookup in a decoded object, i.e. `d[key]` / `d.get(key)` on the
dict produced by the parser (whose insertion already collapses duplicates). -/
def jlookup : List (String × JValue) → String → Option JValue
  | [], _ => none
  | (k, v) :: rest, key => if k = key then some v else jlookup rest key

/-- Dict insertion while parsing an object literal: a repeated key overwrites
in place (Python's last-wins semantics), a fresh key is appended. -/
def insertField (fields : List (String × JValue)) (k : String) (v : JValue) :
    List (String × JValue) :=
  if fields.any (fun p => p.1 = k) then
    fields.map (fun p => if p.1 = k then (k, v) else p)
  else
    fields ++ [(k, v)]

/-- Skip inter-token whitespace. -/
def skipWs : List Char → List Char
  | [] => []
  | c :: cs => if isWsChar c then skipWs cs else c :: cs

/-- Parse the body of a quoted string literal up to the closing `quote`,
resolving the simple backslash escapes (`\n`, `\t`, `\r`, and identity for the
rest, which covers `\"`, `\\`, `\/`).  `fuel` is instantiated with the
remaining length, which suffices as every step consumes a character. -/
def parseStrBody (quote : Char) : Nat → List Char → List Char → Option (String × List Char)
  | 0, _, _ => none
  | _ + 1, _, [] => none
  | fuel + 1, acc, c :: cs =>
    if c = quote then some (String.mk acc.reverse, cs)
    else if c = '\\' then
      match cs with
      | [] => none
      | e :: cs' =>
        let d := if e = 'n' then '\n' else if e = 't' then '\t' else if e = 'r' then '\r' else e
        parseStrBody quote fuel (d :: acc) cs'
    else parseStrBody quote fuel (c :: acc) cs

/-- Split a leading run of decimal digits. -/
def takeDigits : List Char → List Char × List Char
  | [] => ([], [])
  | c :: cs =>
    if c.isDigit then
      let (ds, rest) := takeDigits cs
      (c :: ds, rest)
    else ([], c :: cs)

/-- Parse an integer numeral (optional leading minus). -/
def parseIntLit (cs : List Char) : Option (Int × List Char) :=
  match cs with
  | '-' :: rest =>
    let (ds, rest') := takeDigits rest
    if ds.isEmpty then none else some (-(Int.ofNat (digitsVal ds)), rest')
  | _ =>
    let (ds, rest') := takeDigits cs
    if ds.isEmpty then none else some (Int.ofNat (digitsVal ds), rest')

/-- Drop a literal keyword from the front of the input, if present. -/
def dropLead? (pat cs : List Char) : Option (List Char) :=
  if leadsWith pat cs then some (List.drop pat.length cs) else none

/-- What the recursive-descent parser is currently reading: a single value,
the items of an array (after `[`), or the members of an object (after `{`). -/
inductive PMode where
  | val
  | items (acc : List JValue)
  | members (acc : List (String × JValue))

/-- Parser outcome for each mode. -/
inductive PRes where
  | val (v : JValue) (rest : List Char)
  | items (xs : List JValue) (rest : List Char)
  | members (fs : List (String × JValue)) (rest : List Char)
  | fail

/-- Recursive-descent parser for the JSON / Python-literal fragment.  `py`
selects `ast.literal_eval` spellings (single-quoted strings, `True`/`False`/
`None`) over the strict-JSON ones.  One function over an explicit mode keeps
the recursion structural in `fuel`. -/
def parseStep (py : Bool) : Nat → PMode → List Char → PRes
  | 0, _, _ => .fail
  | fuel + 1, .val, cs =>
    match skipWs cs with
    | [] => .fail
    | c :: rest =>
      if c = '\x7b' then
        match skipWs rest with
        | c1 :: rest1 =>
          if c1 = '\x7d' then .val (.obj []) rest1
          else
            match parseStep py fuel (.members []) (c1 :: rest1) with
            | .members fs r => .val (.obj fs) r
            | _ => .fail
        | [] => .fail
      else if c = '[' then
        match skipWs rest with
        | c1 :: rest1 =>
          if c1 = ']' then .val (.arr []) rest1
          else
            match parseStep py fuel (.items []) (c1 :: rest1) with
            | .items xs r => .val (.arr xs) r
            | _ => .fail
        | [] => .fail
      else if c = '"' || (py && c = '\x27') then
        match parseStrBody c (rest.length + 1) [] rest with
        | some (s, r) => .val (.str s) r
        | none => .fail
      else if c = '-' || c.isDigit then
        match parseIntLit (c :: rest) with
        | some (n, r) => .val (.num n) r
        | none => .fail
      else if py then
        match dropLead? "True".data (c :: rest) with
        | some r => .val (.bool true) r
        | none =>
          match dropLead? "False".data (c :: rest) with
          | some r => .val (.bool false) r
          | none =>
            match dropLead? "None".data (c :: rest) with
            | some r => .val .null r
            | none => .fail
      else
        match dropLead? "true".data (c :: rest) with
        | some r => .val (.bool true) r
        | none =>
          match dropLead? "false".data (c :: rest) with
          | some r => .val (.bool false) r
          | none =>
            match dropLead? "null".data (c :: rest) with
            | some r => .val .null r
            | none => .fail
  | fuel + 1, .members acc, cs =>
    match skipWs cs with
    | [] => .fail
    | q :: rest =>
      if q = '"' || (py && q = '\x27') then
        match parseStrBody q (rest.length + 1) [] rest with
        | some (key, cs2) =>
          match skipWs cs2 with
          | ':' :: cs3 =>
            match parseStep py fuel .val cs3 with
            | .val v cs4 =>
              let acc' := insertField acc key v
              match skipWs cs4 with
              | ',' :: cs5 => parseStep py fuel (.members acc') cs5
              | c :: cs5 => if c = '\x7d' then .members acc' cs5 else .fail
              | [] => .fail
            | _ => .fail
          | _ => .fail
        | none => .fail
      else .fail
  | fuel + 1, .items acc, cs =>
    match parseStep py fuel .val cs with
    | .val v cs2 =>
      let acc' := acc ++ [v]
      match skipWs cs2 with
      | ',' :: cs3 => parseStep py fuel (.items acc') cs3
      | ']' :: cs3 => .items acc' cs3
      | _ => .fail
    | _ => .fail

/-- Whole-string parse (`json.loads` for `py = false`, `ast.literal_eval` for
`py = true`): one value with nothing but whitespace after it. -/
def parseTopWith (py : Bool) (s : String) : Option JValue :=
  match parseStep py (4 * s.data.length + 8) .val s.data with
  | .val v rest => if (skipWs rest).isEmpty then some v else none
  | _ => none

/-- Lines 115-126 of `parse_agent_tasks`: try `json.loads`; on failure try
`ast.literal_eval`; `none` models the re-raised `JSONDecodeError` that the
block-level handler catches. -/
def jsonOrPyParse (s : String) : Option JValue :=
  match parseTopWith false s with
  | some v => some v
  | none => parseTopWith true s

/-!
## Data model: normalized tasks

A normalized task is the dict built at lines 140-147 of `parse_agent_tasks`
(or by the text fallback at lines 180-187): capability string `agent`, task id
`id`, description `task`, and the optional dependency list `need` — the key is
attached only when the payload item supplied one (lines 145-146).
-/

structure AgentTask where
  agent : String
  id : String
  task : String
  need : Option (List String)
  deriving Repr, DecidableEq

/-- `[k.lower() for k in self.agents.keys()]`: the executor registry is built
with keys `coder`, `file`, `web`, `casual` (constructor, lines 24-41). -/
def valid_agents : List String := ["coder", "file", "web", "casual"]

/-- Lines 130-141: normalization of the requested capability.  `orig` is
`task.get("agent")` (`none` when the key is absent).  The code lower-cases a
local copy, remaps `"planner"` on that local copy only, and overwrites
`task["agent"]` with `"Casual"` only in the not-a-valid-agent branch; the
normalized task then reads `task.get("agent", "Casual")` back from the
(possibly mutated) dict.  Note that when the lower-cased name is `"planner"`
the local remap makes the membership test succeed, so the dict is *not*
overwritten and the original `"planner"` value is kept. -/
def normalizeAgent (orig : Option String) : String :=
  let agentName := pyLowerStr (orig.getD "")
  let agentName := if agentName = "planner" then "casual" else agentName
  if agentName ∈ valid_agents then orig.getD "Casual" else "Casual"

/-- Rendering of a decoded scalar into the `String`-typed fields of
`AgentTask`.  Python carries the raw decoded object; every claim (and every
plan the prompts request) uses string `task`/`id` fields, so containers are
rendered as an opaque tag rather than a full repr. -/
def jrender : JValue → String
  | .null => "None"
  | .bool b => if b then "True" else "False"
  | .num n => toString n
  | .str s => s
  | .arr _ => "<container>"
  | .obj _ => "<container>"

/-- The dependency ids carried by a `"need"` value.  Python carries the value
verbatim and every consumer (`get_work_result_agent`) compares its elements
against string task ids, so only its string elements are observable; we keep
exactly those. -/
def needStrings : JValue → List String
  | .arr xs => xs.filterMap (fun x => match x with | .str s => some s | _ => none)
  | _ => []

/-- Outcome of handling one item of the `"plan"` list (lines 129-149):
a normalized task is appended; a missing `"task"` key raises `KeyError` inside
the inner `try`, skipping this item only; a non-string `"agent"` value makes
`.lower()` raise outside the inner `try`, aborting the rest of the block while
keeping the tasks accumulated so far. -/
inductive ItemResult where
  | task (t : AgentTask)
  | skip
  | abort
  deriving Repr, DecidableEq

/-- Lines 130-149 for a single item of the `"plan"` list.  `count` is
`len(tasks)`, the number of tasks accumulated so far (across blocks), used for
the 1-based default id. -/
def normalizeItem (fields : List (String × JValue)) (count : Nat) : ItemResult :=
  let origAgent : Option (Option String) :=
    match jlookup fields "agent" with
    | none => some none
    | some (.str s) => some (some s)
    | some _ => none
  match origAgent with
  | none => .abort
  | some orig =>
    match jlookup fields "task" with
    | none => .skip
    | some tv =>
      .task
        { agent := normalizeAgent orig
        , id :=
            match jlookup fields "id" with
            | some iv => jrender iv
            | none => toString (count + 1)
        , task := jrender tv
        , need := (jlookup fields "need").map needStrings }

/-- The `for task in line_json["plan"]` loop (lines 129-149): iterating a
non-dict item raises `AttributeError` on `task.get`, which the block-level
handler catches, aborting the rest of this block but keeping the accumulated
tasks. -/
def decodeItems : List JValue → List AgentTask → List AgentTask
  | [], acc => acc
  | item :: rest, acc =>
    match item with
    | .obj fields =>
      match normalizeItem fields acc.length with
      | .abort => acc
      | .skip => decodeItems rest acc
      | .task t => decodeItems rest (acc ++ [t])
    | _ => acc

/-- Modelled from the spec: `Tools.load_exec_block` (`sources/tools/tools.py`,
not under src/) per §4.2 step 1, "locate one or more delimited payload blocks
tagged as structured data within the text" — the contents between a fence
carrying the configured tag (`self.tools["json"].tag = "json"`, line 22) and
its closing fence. -/
def extract_blocks (text : String) : List String :=
  match pySplitOn text "```json" with
  | [] => []
  | _ :: rest =>
    rest.filterMap (fun seg =>
      match pySplitOn seg "```" with
      | content :: _ :: _ => some content
      | _ => none)

/-- `str.find(c)`: index of the first occurrence. -/
def charFindIdx (cs : List Char) (c : Char) : Option Nat :=
  cs.findIdx? (fun x => x = c)

/-- `str.rfind(c)`: index of the last occurrence. -/
def charRFindIdx (cs : List Char) (c : Char) : Option Nat :=
  (cs.reverse.findIdx? (fun x => x = c)).map (fun i => cs.length - 1 - i)

/-- Lines 93-104: the blocks fed to the per-block loop.  If the extractor
found none, fall back to the single slice from the first `{` to one past the
last `}` of the whole text.  Python computes `end = text.rfind("}") + 1`, so
`end != -1` always holds and the guard is decided by `start != -1` alone; with
a `{` but no `}` the slice is empty. -/
def decodeBlocks (text : String) : List String :=
  let blocks := extract_blocks text
  if blocks.isEmpty then
    match charFindIdx text.data '\x7b' with
    | none => []
    | some start =>
      let stop := match charRFindIdx text.data '\x7d' with
        | some j => j + 1
        | none => 0
      [String.mk ((text.data.drop start).take (stop - start))]
  else blocks

/-- Lines 106-152 for one block: strip fence markers, parse (strict JSON then
literal fallback), and when the value is a dict with a `"plan"` key holding a
list, run the item loop.  Any other shape raises inside the block-level `try`
(`in` on a number, indexing a list/str with `"plan"`, iterating a non-list),
which skips this block and keeps the accumulated tasks. -/
def processBlock (block : String) (acc : List AgentTask) : List AgentTask :=
  let clean := pyStripStr (pyReplaceStr (pyReplaceStr block "```json" "") "```" "")
  match jsonOrPyParse clean with
  | some (.obj fields) =>
    match jlookup fields "plan" with
    | some (.arr items) => decodeItems items acc
    | some _ => acc
    | none => acc
  | some _ => acc
  | none => acc

/-- `get_task_names` (lines 52-74): strip the text, split into lines, strip
each line, keep the nonempty ones containing `##` or starting with a digit. -/
def get_task_names (text : String) : List String :=
  ((pySplitOn (pyStripStr text) "\n").map pyStripStr).filter
    (fun l => !l.data.isEmpty && (hasSub l.data ("##".data) || (l.data.headD ' ').isDigit))

/-- Lines 171-178: the capability chosen for a heading line by the text
fallback — note the chain also maps `"python"` to `Coder`. -/
def fallbackAgentType (taskName : String) : String :=
  let l := (pyLowerStr taskName).data
  if hasSub l ("code".data) || hasSub l ("script".data) || hasSub l ("python".data) then
    "Coder"
  else if hasSub l ("search".data) || hasSub l ("web".data) || hasSub l ("internet".data) then
    "Web"
  else if hasSub l ("file".data) || hasSub l ("folder".data) then
    "File"
  else "Casual"

/-- Lines 170-187: one synthesized task per heading line, 1-based string ids,
each task after the first depending exactly on its predecessor.  The
`enumerate` loop is rendered as a map over the indexed list. -/
def fallbackTasks (names : List String) : List AgentTask :=
  names.enum.map (fun p =>
    { agent := fallbackAgentType p.2
    , id := toString (p.1 + 1)
    , task := p.2
    , need := some (if p.1 > 0 then [toString p.1] else []) })

/-- The structured-decode stage of `parse_agent_tasks` (lines 92-156): all
blocks folded through the per-block loop. -/
def decodeStage (text : String) : List AgentTask :=
  (decodeBlocks text).foldl (fun acc b => processBlock b acc) []

/-- `parse_agent_tasks` (lines 76-198): decode; if that yielded nothing and
heading lines exist, synthesize from them; return `[t["task"], t]` pairs. -/
def parse_agent_tasks (text : String) : List (String × AgentTask) :=
  let tasks_names := get_task_names text
  let tasks := decodeStage text
  let tasks :=
    if tasks.isEmpty && !tasks_names.isEmpty then fallbackTasks tasks_names else tasks
  tasks.map (fun t => (t.task, t))

/-!
## Plan negotiation (`make_plan`, lines 243-285)

The LLM is the oracle `llm : Nat → String`; `startIdx` is the position in the
global call stream (the conversation memory).  The run is instrumented with
the number of model calls made and the list of responses handed to
`parse_agent_tasks` (the decode-plus-fallback stage), so that short-circuiting
is observable.  On success the code re-parses the accepted answer at line 285,
hence that answer appears twice in the trace.
-/

structure NegotiationRun where
  plan : List (String × AgentTask)
  calls : Nat
  decoded : List String
  deriving Repr, DecidableEq

/-- State of the `while not ok and retries < max_retries` loop (lines
251-272): either still retrying (next oracle position, calls made, responses
decoded so far) or finished with a run. -/
inductive NegoState where
  | running (idx calls : Nat) (decoded : List String)
  | done (run : NegotiationRun)

/-- One iteration of the negotiation loop (lines 255-272).  A response
containing `"NO_UPDATE"` returns the empty plan before the parser runs
(lines 260-261); an unparseable response retries with a corrective prompt
(absorbed by the oracle, lines 263-270); otherwise the attempt is accepted
and the code re-parses the accepted answer at line 285, so it enters the
decode trace twice. -/
def negotiationStep (llm : Nat → String) : NegoState → NegoState
  | .done r => .done r
  | .running idx calls decoded =>
    let answer := llm idx
    if pyContains answer "NO_UPDATE" then
      .done { plan := [], calls := calls + 1, decoded := decoded }
    else if parse_agent_tasks answer = [] then
      .running (idx + 1) (calls + 1) (decoded ++ [answer])
    else
      .done { plan := parse_agent_tasks answer
            , calls := calls + 1
            , decoded := decoded ++ [answer] ++ [answer] }

/-- Exhaustion (lines 274-282): still running after the last retry means the
empty plan is returned, not an error. -/
def finishNegotiation : NegoState → NegotiationRun
  | .done r => r
  | .running _ calls decoded => { plan := [], calls := calls, decoded := decoded }

/-- `make_plan` (lines 243-285): `max_retries = 3` attempts, unrolled. -/
def make_plan (llm : Nat → String) (startIdx : Nat) : NegotiationRun :=
  finishNegotiation
    (negotiationStep llm (negotiationStep llm (negotiationStep llm
      (.running startIdx 0 []))))

/-!
## Result store and dependency context
-/

/-- Dict lookup in the result store (`agents_work_result`). -/
def storeLookup : List (String × String) → String → Option String
  | [], _ => none
  | (k, v) :: rest, key => if k = key then some v else storeLookup rest key

/-- `agents_work_result[task["id"]] = answer`: overwrite in place, append if
fresh (Python dict assignment). -/
def storeInsert (store : List (String × String)) (k v : String) : List (String × String) :=
  if (storeLookup store k).isSome then
    store.map (fun p => if p.1 = k then (k, v) else p)
  else
    store ++ [(k, v)]

/-- `get_work_result_agent` (lines 382-387):
`{k: agents_work_result[k] for k in task_needs if k in agents_work_result}`. -/
def get_work_result_agent (task_needs : List String)
    (agents_work_result : List (String × String)) : List (String × String) :=
  task_needs.filterMap (fun k => (storeLookup agents_work_result k).map (fun v => (k, v)))

/-!
## Replanning (`update_plan`, lines 287-347)
-/

/-- `update_plan`.  Line 305 reads `agents_work_result[id]` unguarded, so an
id absent from the store raises `KeyError` before anything else; an id that is
not `int`-parseable is caught at lines 311-315 and keeps the current plan with
no model call.  Otherwise the replan directive goes through `make_plan` and an
empty result keeps the current plan (lines 342-347).  `goal`, `success` and
the `next_task` selection (lines 316-322) only shape the directive string,
which the oracle absorbs; the returned `Nat` is the next position in the
oracle's call stream. -/
def update_plan (llm : Nat → String) (llmIdx : Nat) (goal : String)
    (agents_tasks : List (String × AgentTask)) (agents_work_result : List (String × String))
    (id : String) (success : Bool) : Except String (List (String × AgentTask) × Nat) :=
  match storeLookup agents_work_result id with
  | none => .error "KeyError: work result"
  | some _lastWork =>
    match pyInt? id with
    | none => .ok (agents_tasks, llmIdx)
    | some _idInt =>
      let run := make_plan llm llmIdx
      if run.plan = [] then .ok (agents_tasks, llmIdx + run.calls)
      else .ok (run.plan, llmIdx + run.calls)

/-!
## Orchestration (`process`, lines 389-437)

The executors are the oracle
`exec : AgentTask → List (String × String) → String × Bool` returning the raw
answer and the success flag; `start_agent_process` (lines 349-380) appends the
fixed success/failure marker to the raw answer and looks the executor up by
the lower-cased capability — a capability outside the registry raises
`KeyError`.  The cooperative stop flag is polled at each loop condition and
modelled as `stop : Nat → Bool` of the iteration counter.  The run is
instrumented with the list of dispatched tasks and the final result store.
-/

structure RunOutcome where
  result : String
  dispatched : List AgentTask
  store : List (String × String)
  deriving Repr, DecidableEq

/-- The `while i < steps and not self.stop` loop (lines 407-435).  `fuel`
bounds the iteration count (the Python loop may run unboundedly if every
replan extends the plan); every claim needs only finitely many steps.
Reading `task["need"]` (line 422) raises `KeyError` when the decoded task
carries no `"need"` key.  The final `return answer` (line 437) raises
`UnboundLocalError` if no iteration ever ran. -/
def processLoop (llm : Nat → String)
    (exec : AgentTask → List (String × String) → String × Bool)
    (stop : Nat → Bool) (goal : String) :
    Nat → List (String × AgentTask) → Nat → List (String × String) → Option String → Nat →
    List AgentTask → Except String RunOutcome
  | 0, _, _, _, _, _, _ => .error "fuel exhausted"
  | fuel + 1, plan, i, store, answer, llmIdx, dispatched =>
    match plan.get? i, stop i with
    | some (_taskName, task), false =>
      match task.need with
      | none => .error "KeyError: need"
      | some needs =>
        let required := get_work_result_agent needs store
        if pyLowerStr task.agent ∈ valid_agents then
          let (rawAns, succ) := exec task required
          let ans := rawAns ++
            (if succ then "\nAgent succeeded with task."
             else "\nAgent failed with task (Error detected).")
          let store' := storeInsert store task.id ans
          match update_plan llm llmIdx goal plan store' task.id succ with
          | .error e => .error e
          | .ok (plan', llmIdx') =>
            processLoop llm exec stop goal fuel plan' (i + 1) store' (some ans) llmIdx'
              (dispatched ++ [task])
        else .error "KeyError: agent"
    | _, _ =>
      match answer with
      | none => .error "UnboundLocalError: answer"
      | some a => .ok { result := a, dispatched := dispatched, store := store }

/-- `process` (lines 389-437): negotiate the initial plan for the goal; an
empty plan ends the run at once with the failure message (lines 405-406) and
the loop never starts. -/
def process (llm : Nat → String)
    (exec : AgentTask → List (String × String) → String × Bool)
    (stop : Nat → Bool) (goal : String) (fuel : Nat) : Except String RunOutcome :=
  let run := make_plan llm 0
  if run.plan = [] then .ok { result := "Failed to parse the tasks.", dispatched := [], store := [] }
  else processLoop llm exec stop goal fuel run.plan 0 [] none run.calls []

/-!
## Spec-side capability classifiers (for the fallback-synthesis claim)

Two definitions written from the words of the claim, to be compared with the
code's `fallbackAgentType`: the classification rule exactly as the claim
states it, and the same rule amended with the `"python"` keyword that the
code also recognizes.  Both return the lower-case capability enum names of
the spec's data model (§3); the code realizes the enum with capitalized
strings that every consumer lower-cases.
-/

/-- The claim's reclassification rule, verbatim: contains `code`/`script` →
`coder`; `search`/`web`/`internet` → `web`; `file`/`folder` → `file`;
otherwise the default `casual`. -/
def claimCapabilityOf (line : String) : String :=
  let l := (pyLowerStr line).data
  if hasSub l ("code".data) || hasSub l ("script".data) then
    "coder"
  else if hasSub l ("search".data) || hasSub l ("web".data) || hasSub l ("internet".data) then
    "web"
  else if hasSub l ("file".data) || hasSub l ("folder".data) then
    "file"
  else "casual"

/-- The amended rule: as the claim states it, plus `"python"` among the coder
keywords — the minimal change the code forces. -/
def amendedCapabilityOf (line : String) : String :=
  let l := (pyLowerStr line).data
  if hasSub l ("code".data) || hasSub l ("script".data) || hasSub l ("python".data) then
    "coder"
  else if hasSub l ("search".data) || hasSub l ("web".data) || hasSub l ("internet".data) then
    "web"
  else if hasSub l ("file".data) || hasSub l ("folder".data) then
    "file"
  else "casual"

/-- Predicate on payload items: a dict whose `"agent"` value, when present, is
a string (so capability normalization cannot raise and abort the block). -/
def parseableObj : JValue → Bool
  | .obj fields =>
    match jlookup fields "agent" with
    | none => true
    | some (.str _) => true
    | some _ => false
  | _ => false

/-- Predicate on payload items: carries the required `"task"` field. -/
def hasTaskField : JValue → Bool
  | .obj fields => (jlookup fields "task").isSome
  | _ => false

/-- The description a well-formed payload item contributes. -/
def taskDesc : JValue → String
  | .obj fields =>
    match jlookup fields "task" with
    | some tv => jrender tv
    | none => ""
  | _ => ""

/-!
## Claims
-/

/-- **C1** (code bug).  The capability-normalization claim fails on the code:
for a payload task whose capability is the planner's own name, lines 132-133
remap only the local lower-cased copy, so the membership test at line 134
passes and `task["agent"]` is never overwritten; the normalized task keeps
capability `"planner"`, which lies outside `{coder, file, web, casual}`, and a
later dispatch of that task raises `KeyError` in the executor lookup.  The
spec (and the dead local remap plus the "mapping to casual" log message) make
the remap clearly the intent; the code is the slip. -/
theorem planner_capability_not_remapped :
    parse_agent_tasks "```json\n\x7b\"plan\": [\x7b\"agent\": \"planner\", \"task\": \"do X\"\x7d]\x7d\n```"
      = [("do X", { agent := "planner", id := "1", task := "do X", need := none })]
    ∧ "planner" ∉ valid_agents
    ∧ pyLowerStr "planner" ∉ valid_agents
    ∧ processLoop (fun _ => "") (fun _ _ => ("", true)) (fun _ => false) "g" 1
        [("do X", { agent := "planner", id := "1", task := "do X", need := some [] })]
        0 [] none 0 []
      = .error "KeyError: agent" := by
  refine ⟨rfl, by decide, by decide, rfl⟩

/-- **C2, counterexample**.  The claim quantifies over every result store, but
line 305 reads `agents_work_result[id]` before the guarded `int(id)`
conversion: with the malformed id `"abc"` and a store not containing that key,
`update_plan` raises `KeyError` instead of returning the plan unchanged. -/
theorem update_plan_missing_result_raises :
    update_plan (fun _ => "") 0 "g" [] [] "abc" true = .error "KeyError: work result" := rfl

/-- **C2, amended**.  If the completed-task id is not parseable as an integer
index *and is present in the result store* (which is always the case at the
orchestration call site, line 430 storing the output under that id right
before line 431), the replanner returns the current plan unchanged, logs a
warning, and does not raise — and makes no model call. -/
theorem update_plan_malformed_id_keeps_plan :
    ∀ (llm : Nat → String) (llmIdx : Nat) (goal : String)
      (plan : List (String × AgentTask)) (store : List (String × String))
      (id : String) (success : Bool),
      (storeLookup store id).isSome = true →
      pyInt? id = none →
      update_plan llm llmIdx goal plan store id success = .ok (plan, llmIdx) := by
  intro llm llmIdx goal plan store id success hsome hint
  unfold update_plan
  match h : storeLookup store id with
  | none => rw [h] at hsome; simp at hsome
  | some w => simp only [hint]

/-- Witness for `update_plan_malformed_id_keeps_plan` at the claim's Scenario
C input `"abc"`. -/
theorem update_plan_malformed_id_keeps_plan_witness :
    update_plan (fun _ => "") 0 "g"
      [("t", { agent := "Coder", id := "1", task := "t", need := some [] })]
      [("abc", "done")] "abc" true
      = .ok ([("t", { agent := "Coder", id := "1", task := "t", need := some [] })], 0) :=
  update_plan_malformed_id_keeps_plan _ _ _ _ _ _ _ rfl rfl

/-- **C6**.  The dependency context composed for an executor is exactly the
restriction of the result store to the task's dependency list: looking up any
key in the context yields the stored output when the key is a declared
dependency present in the store, and nothing otherwise; and every entry of the
context is a declared dependency paired with its stored output.  The
comprehension is total — an id absent from the store is omitted, never
faulted. -/
theorem dependency_context_restriction :
    (∀ (needs : List String) (store : List (String × String)) (k : String),
       storeLookup (get_work_result_agent needs store) k
         = if k ∈ needs then storeLookup store k else none)
    ∧ (∀ (needs : List String) (store : List (String × String)) (p : String × String),
       p ∈ get_work_result_agent needs store →
         p.1 ∈ needs ∧ storeLookup store p.1 = some p.2) := by
  constructor
  · intro needs store k
    induction needs with
    | nil => simp [get_work_result_agent, storeLookup]
    | cons n rest ih =>
      simp only [get_work_result_agent, List.filterMap_cons] at ih ⊢
      by_cases hk : k = n
      · subst hk
        cases hn : storeLookup store k with
        | none =>
          simp only [hn, Option.map_none', ih]
          simp [hn]
        | some v =>
          simp [hn, Option.map_some', storeLookup]
      · cases hn : storeLookup store n with
        | none =>
          simp only [hn, Option.map_none', ih]
          simp [List.mem_cons, hk]
        | some v =>
          simp only [hn, Option.map_some', storeLookup,
            if_neg (fun h => hk (Eq.symm h)), ih]
          simp [List.mem_cons, hk]
  · intro needs store p hp
    simp only [get_work_result_agent, List.mem_filterMap] at hp
    obtain ⟨a, ha, hfa⟩ := hp
    match hv : storeLookup store a with
    | none => rw [hv] at hfa; simp at hfa
    | some v =>
      rw [hv] at hfa
      simp only [Option.map_some', Option.some.injEq] at hfa
      subst hfa
      exact ⟨ha, hv⟩

/-- Witness for `dependency_context_restriction`: a store with one resolved id
and a dependency list also naming an unresolved id. -/
theorem dependency_context_restriction_witness :
    storeLookup (get_work_result_agent ["1", "9"] [("1", "x")]) "1" = some "x"
    ∧ (("1", "x").1 ∈ ["1", "9"] ∧ storeLookup [("1", "x")] ("1", "x").1 = some ("1", "x").2) := by
  constructor
  · have h := dependency_context_restriction.1 ["1", "9"] [("1", "x")] "1"
    simpa using h
  · exact dependency_context_restriction.2 ["1", "9"] [("1", "x")] ("1", "x") (by decide)

/-- The item loop only ever appends: the accumulated tasks are a leading
segment of its result. -/
theorem decodeItems_extends (items : List JValue) (acc : List AgentTask) :
    ∃ l, decodeItems items acc = acc ++ l := by
  induction items generalizing acc with
  | nil => exact ⟨[], by simp [decodeItems]⟩
  | cons item rest ih =>
    cases item with
    | obj fields =>
      cases hn : normalizeItem fields acc.length with
      | abort => exact ⟨[], by simp [decodeItems, hn]⟩
      | skip =>
        obtain ⟨l, hl⟩ := ih acc
        exact ⟨l, by simp [decodeItems, hn, hl]⟩
      | task t =>
        obtain ⟨l, hl⟩ := ih (acc ++ [t])
        exact ⟨[t] ++ l, by simp [decodeItems, hn, hl]⟩
    | null => exact ⟨[], by simp [decodeItems]⟩
    | bool b => exact ⟨[], by simp [decodeItems]⟩
    | num n => exact ⟨[], by simp [decodeItems]⟩
    | str s => exact ⟨[], by simp [decodeItems]⟩
    | arr xs => exact ⟨[], by simp [decodeItems]⟩

/-- A payload item that is a dict with a string-or-absent `"agent"` and a
`"task"` field always normalizes to a task whose description is the rendered
`"task"` value. -/
theorem normalizeItem_of_wellformed (fields : List (String × JValue)) (c : Nat)
    (hagent : parseableObj (.obj fields) = true)
    (htask : hasTaskField (.obj fields) = true) :
    ∃ t, normalizeItem fields c = .task t ∧ t.task = taskDesc (.obj fields) := by
  obtain ⟨tv, htv⟩ : ∃ tv, jlookup fields "task" = some tv := by
    cases h : jlookup fields "task" with
    | none => simp [hasTaskField, h] at htask
    | some tv => exact ⟨tv, rfl⟩
  cases ha : jlookup fields "agent" with
  | none =>
    refine ⟨⟨normalizeAgent none,
             (match jlookup fields "id" with
              | some iv => jrender iv
              | none => toString (c + 1)),
             jrender tv,
             (jlookup fields "need").map needStrings⟩, ?_, ?_⟩
    · simp only [normalizeItem, ha, htv]
    · simp [taskDesc, htv]
  | some av =>
    cases av with
    | str s =>
      refine ⟨⟨normalizeAgent (some s),
               (match jlookup fields "id" with
                | some iv => jrender iv
                | none => toString (c + 1)),
               jrender tv,
               (jlookup fields "need").map needStrings⟩, ?_, ?_⟩
      · simp only [normalizeItem, ha, htv]
      · simp [taskDesc, htv]
    | null => simp [parseableObj, ha] at hagent
    | bool b => simp [parseableObj, ha] at hagent
    | num n => simp [parseableObj, ha] at hagent
    | arr xs => simp [parseableObj, ha] at hagent
    | obj fs => simp [parseableObj, ha] at hagent

/-- A payload item that is a dict with a string-or-absent `"agent"` but no
`"task"` field is skipped: `task["task"]` raises `KeyError` inside the inner
`try` and the loop continues with the next item. -/
theorem normalizeItem_of_taskless (fields : List (String × JValue)) (c : Nat)
    (hagent : parseableObj (.obj fields) = true)
    (htask : hasTaskField (.obj fields) = false) :
    normalizeItem fields c = .skip := by
  have hnone : jlookup fields "task" = none := by
    cases h : jlookup fields "task" with
    | none => rfl
    | some tv => simp [hasTaskField, h] at htask
  cases ha : jlookup fields "agent" with
  | none => simp only [normalizeItem, ha, hnone]
  | some av =>
    cases av with
    | str s => simp only [normalizeItem, ha, hnone]
    | null => simp [parseableObj, ha] at hagent
    | bool b => simp [parseableObj, ha] at hagent
    | num n => simp [parseableObj, ha] at hagent
    | arr xs => simp [parseableObj, ha] at hagent
    | obj fs => simp [parseableObj, ha] at hagent

/-- **C8**.  For a structured payload whose `"plan"` items are all well-formed
task objects, the decode loop produces exactly one normalized task per item,
in payload order (witnessed by the descriptions); and an item lacking the
required `"task"` field is skipped in isolation — deleting it from the payload
changes nothing else, in particular the 1-based running count that numbers the
surviving tasks. -/
theorem decode_preserves_wellformed_tasks :
    (∀ (items : List JValue) (acc : List AgentTask),
       (∀ it ∈ items, parseableObj it = true ∧ hasTaskField it = true) →
       (decodeItems items acc).length = acc.length + items.length
       ∧ ((decodeItems items acc).drop acc.length).map AgentTask.task = items.map taskDesc)
    ∧ (∀ (pre : List JValue) (bad : JValue) (post : List JValue) (acc : List AgentTask),
       parseableObj bad = true → hasTaskField bad = false →
       decodeItems (pre ++ bad :: post) acc = decodeItems (pre ++ post) acc) := by
  constructor
  · intro items
    induction items with
    | nil =>
      intro acc _
      simp [decodeItems]
    | cons item rest ih =>
      intro acc h
      obtain ⟨hp, ht⟩ := h item (List.mem_cons_self item rest)
      cases item with
      | obj fields =>
        obtain ⟨t, hnorm, htask⟩ := normalizeItem_of_wellformed fields acc.length hp ht
        have hrec := ih (acc ++ [t]) (fun it hit => h it (List.mem_cons_of_mem _ hit))
        obtain ⟨l, hl⟩ := decodeItems_extends rest (acc ++ [t])
        constructor
        · simp only [decodeItems, hnorm]
          rw [hrec.1]
          simp [Nat.add_comm, Nat.add_assoc, Nat.add_left_comm]
        · simp only [decodeItems, hnorm]
          have h2 := hrec.2
          rw [hl] at h2 ⊢
          rw [List.drop_left] at h2
          rw [List.append_assoc, List.drop_left]
          simp only [List.singleton_append, List.map_cons, List.map_cons]
          rw [htask, h2]
      | null => simp [parseableObj] at hp
      | bool b => simp [parseableObj] at hp
      | num n => simp [parseableObj] at hp
      | str s => simp [parseableObj] at hp
      | arr xs => simp [parseableObj] at hp
  · intro pre bad post acc hp ht
    induction pre generalizing acc with
    | nil =>
      cases bad with
      | obj fields =>
        simp only [List.nil_append, decodeItems,
          normalizeItem_of_taskless fields acc.length hp ht]
      | null => simp [parseableObj] at hp
      | bool b => simp [parseableObj] at hp
      | num n => simp [parseableObj] at hp
      | str s => simp [parseableObj] at hp
      | arr xs => simp [parseableObj] at hp
    | cons x pre' ih =>
      cases x with
      | obj fields =>
        simp only [List.cons_append, decodeItems]
        cases hn : normalizeItem fields acc.length with
        | abort => rfl
        | skip => exact ih acc
        | task t => exact ih (acc ++ [t])
      | null => simp [decodeItems]
      | bool b => simp [decodeItems]
      | num n => simp [decodeItems]
      | str s => simp [decodeItems]
      | arr xs => simp [decodeItems]

/-- Witness for `decode_preserves_wellformed_tasks`: a two-item well-formed
payload decodes to two tasks in order, and dropping a taskless item leaves the
rest untouched. -/
theorem decode_preserves_wellformed_tasks_witness :
    ((decodeItems [JValue.obj [("task", JValue.str "a")],
                   JValue.obj [("agent", JValue.str "coder"), ("task", JValue.str "b")]] []).length
       = ([] : List AgentTask).length + 2
     ∧ ((decodeItems [JValue.obj [("task", JValue.str "a")],
                      JValue.obj [("agent", JValue.str "coder"), ("task", JValue.str "b")]] []).drop 0).map
          AgentTask.task
       = [JValue.obj [("task", JValue.str "a")],
          JValue.obj [("agent", JValue.str "coder"), ("task", JValue.str "b")]].map taskDesc)
    ∧ decodeItems [JValue.obj [("task", JValue.str "a")],
                   JValue.obj [("agent", JValue.str "x")],
                   JValue.obj [("task", JValue.str "c")]] []
      = decodeItems [JValue.obj [("task", JValue.str "a")],
                     JValue.obj [("task", JValue.str "c")]] [] := by
  constructor
  · exact decode_preserves_wellformed_tasks.1 _ []
      (by intro it hit; fin_cases hit <;> exact ⟨rfl, rfl⟩)
  · exact decode_preserves_wellformed_tasks.2
      [JValue.obj [("task", JValue.str "a")]] (JValue.obj [("agent", JValue.str "x")])
      [JValue.obj [("task", JValue.str "c")]] [] rfl rfl

/-- **C9**.  The orchestration loop reads `task["need"]` unconditionally
(line 422) while the decoder attaches a `"need"` key only when the payload
item supplied one (lines 145-146): a decoded task normalizes with `need`
present exactly when the payload had it; fallback-synthesized tasks always
carry `need`; and whenever the loop reaches a task without `need`, the
dispatch faults with `KeyError` — the loop is total only under the
precondition that every task dict carries the key. -/
theorem missing_need_faults_dispatch :
    (∀ (fields : List (String × JValue)) (c : Nat) (t : AgentTask),
       normalizeItem fields c = .task t →
       (t.need.isSome ↔ (jlookup fields "need").isSome))
    ∧ (∀ (names : List String) (t : AgentTask), t ∈ fallbackTasks names → t.need.isSome)
    ∧ (∀ (llm : Nat → String) (exec : AgentTask → List (String × String) → String × Bool)
         (stop : Nat → Bool) (goal : String) (fuel : Nat)
         (plan : List (String × AgentTask)) (i : Nat) (store : List (String × String))
         (answer : Option String) (llmIdx : Nat) (dispatched : List AgentTask)
         (taskName : String) (task : AgentTask),
       plan.get? i = some (taskName, task) → stop i = false → task.need = none →
       processLoop llm exec stop goal (fuel + 1) plan i store answer llmIdx dispatched
         = .error "KeyError: need") := by
  refine ⟨?_, ?_, ?_⟩
  · intro fields c t hnorm
    cases ha : jlookup fields "agent" with
    | none =>
      cases htv : jlookup fields "task" with
      | none => simp [normalizeItem, ha, htv] at hnorm
      | some tv =>
        simp only [normalizeItem, ha, htv, ItemResult.task.injEq] at hnorm
        subst hnorm
        simp
    | some av =>
      cases av with
      | str s =>
        cases htv : jlookup fields "task" with
        | none => simp [normalizeItem, ha, htv] at hnorm
        | some tv =>
          simp only [normalizeItem, ha, htv, ItemResult.task.injEq] at hnorm
          subst hnorm
          simp
      | null => simp [normalizeItem, ha] at hnorm
      | bool b => simp [normalizeItem, ha] at hnorm
      | num n => simp [normalizeItem, ha] at hnorm
      | arr xs => simp [normalizeItem, ha] at hnorm
      | obj fs => simp [normalizeItem, ha] at hnorm
  · intro names t ht
    simp only [fallbackTasks, List.mem_map] at ht
    obtain ⟨p, _, hpt⟩ := ht
    subst hpt
    simp
  · intro llm exec stop goal fuel plan i store answer llmIdx dispatched taskName task
      hget hstop hneed
    simp only [processLoop, hget, hstop, hneed]

/-- Witness for `missing_need_faults_dispatch`: the payload item
`{"task": "x"}` decodes without `need`, and dispatching the resulting task
faults. -/
theorem missing_need_faults_dispatch_witness :
    (((⟨"Casual", "1", "x", none⟩ : AgentTask).need.isSome
        ↔ (jlookup [("task", JValue.str "x")] "need").isSome)
      ∧ (⟨"Web", "1", "1. go web", some []⟩ : AgentTask).need.isSome)
    ∧ processLoop (fun _ => "") (fun _ _ => ("", true)) (fun _ => false) "g" 1
        [("x", ⟨"Casual", "1", "x", none⟩)] 0 [] none 0 []
      = .error "KeyError: need" := by
  refine ⟨⟨?_, ?_⟩, ?_⟩
  · exact missing_need_faults_dispatch.1 [("task", JValue.str "x")] 0 _ rfl
  · exact missing_need_faults_dispatch.2.1 ["1. go web"] _ (by decide)
  · exact missing_need_faults_dispatch.2.2 _ _ _ "g" 0 _ 0 [] none 0 [] "x" _ rfl rfl rfl

/-- **C7**.  If the initial negotiation for the goal returns the empty plan,
the run ends at once with the failure result, no task is dispatched, and the
result store stays empty (lines 402-406). -/
theorem empty_initial_plan_aborts_run :
    ∀ (llm : Nat → String), (make_plan llm 0).plan = [] →
    ∀ (exec : AgentTask → List (String × String) → String × Bool)
      (stop : Nat → Bool) (goal : String) (fuel : Nat),
      process llm exec stop goal fuel
        = .ok { result := "Failed to parse the tasks.", dispatched := [], store := [] } := by
  intro llm hplan exec stop goal fuel
  simp [process, hplan]

/-- Witness for `empty_initial_plan_aborts_run`: three unparseable responses
(Scenario D) give an empty initial plan and the aborted run. -/
theorem empty_initial_plan_aborts_run_witness :
    process (fun _ => "nothing here") (fun _ _ => ("", true)) (fun _ => false) "goal" 5
      = .ok { result := "Failed to parse the tasks.", dispatched := [], store := [] } :=
  empty_initial_plan_aborts_run (fun _ => "nothing here") rfl
    (fun _ _ => ("", true)) (fun _ => false) "goal" 5

/-- **C3**.  When every attempt yields a response that neither contains the
terminal marker nor decodes nor synthesizes to a non-empty plan, negotiation
makes at most three model calls and returns the empty plan; `make_plan` is a
total function of the oracle, so termination and absence of an error are
inherent in the embedding. -/
theorem make_plan_exhaustion_bounded :
    ∀ llm : Nat → String,
      (∀ j, j < 3 → pyContains (llm j) "NO_UPDATE" = false ∧ parse_agent_tasks (llm j) = []) →
      (make_plan llm 0).plan = [] ∧ (make_plan llm 0).calls ≤ 3 := by
  intro llm h
  have h0 := h 0 (by omega)
  have h1 := h 1 (by omega)
  have h2 := h 2 (by omega)
  simp [make_plan, negotiationStep, finishNegotiation,
    h0.1, h0.2, h1.1, h1.2, h2.1, h2.2]

/-- Witness for `make_plan_exhaustion_bounded`: a constant unparseable
response. -/
theorem make_plan_exhaustion_bounded_witness :
    (make_plan (fun _ => "unstructured reply") 0).plan = []
    ∧ (make_plan (fun _ => "unstructured reply") 0).calls ≤ 3 :=
  make_plan_exhaustion_bounded (fun _ => "unstructured reply") (fun _ _ => ⟨rfl, rfl⟩)

/-- **C5**.  The first response containing the terminal marker `"NO_UPDATE"`
short-circuits negotiation: the empty plan is returned with no further model
call, and the decode trace — the responses handed to `parse_agent_tasks`,
covering both the payload decoder and the fallback synthesizer — holds
exactly the earlier failed responses, not the marker response. -/
theorem terminal_marker_short_circuits :
    ∀ (llm : Nat → String) (k : Nat), k < 3 →
      (∀ j, j < k → pyContains (llm j) "NO_UPDATE" = false ∧ parse_agent_tasks (llm j) = []) →
      pyContains (llm k) "NO_UPDATE" = true →
      make_plan llm 0
        = { plan := [], calls := k + 1, decoded := (List.range k).map llm } := by
  intro llm k hk hprev hmark
  interval_cases k
  · simp [make_plan, negotiationStep, finishNegotiation, hmark]
  · have h0 := hprev 0 (by omega)
    simp [make_plan, negotiationStep, finishNegotiation, h0.1, h0.2, hmark,
      List.range_succ]
  · have h0 := hprev 0 (by omega)
    have h1 := hprev 1 (by omega)
    simp [make_plan, negotiationStep, finishNegotiation, h0.1, h0.2, h1.1, h1.2,
      hmark, List.range_succ]

/-- Witness for `terminal_marker_short_circuits`: the marker in the very first
response. -/
theorem terminal_marker_short_circuits_witness :
    make_plan (fun _ => "NO_UPDATE needed") 0 = { plan := [], calls := 1, decoded := [] } := by
  have h := terminal_marker_short_circuits (fun _ => "NO_UPDATE needed") 0 (by omega)
    (fun j hj => absurd hj (Nat.not_lt_zero j)) rfl
  simpa using h

/-- **C10**.  Plan decoding is a pure function of the response text, hence
deterministic; consequently, when the retry loop accepts attempt `k` (every
earlier attempt failed to parse, attempt `k` lacks the marker and parses to a
non-empty list), the plan `make_plan` returns — the line-285 re-parse of the
accepted answer — equals the non-empty plan validated inside the loop, so a
successful negotiation never returns an empty plan. -/
theorem negotiation_success_nonempty :
    ∀ (llm : Nat → String) (k : Nat), k < 3 →
      (∀ j, j < k → pyContains (llm j) "NO_UPDATE" = false ∧ parse_agent_tasks (llm j) = []) →
      pyContains (llm k) "NO_UPDATE" = false →
      parse_agent_tasks (llm k) ≠ [] →
      (make_plan llm 0).plan = parse_agent_tasks (llm k)
      ∧ (make_plan llm 0).plan ≠ [] := by
  intro llm k hk hprev hmark hparse
  interval_cases k
  · simp [make_plan, negotiationStep, finishNegotiation, hmark, hparse]
  · have h0 := hprev 0 (by omega)
    simp [make_plan, negotiationStep, finishNegotiation, h0.1, h0.2, hmark, hparse]
  · have h0 := hprev 0 (by omega)
    have h1 := hprev 1 (by omega)
    simp [make_plan, negotiationStep, finishNegotiation, h0.1, h0.2, h1.1, h1.2,
      hmark, hparse]

/-- Witness for `negotiation_success_nonempty`: the first response already
synthesizes a one-task plan from its heading line. -/
theorem negotiation_success_nonempty_witness :
    (make_plan (fun _ => "1. write code") 0).plan = parse_agent_tasks "1. write code"
    ∧ (make_plan (fun _ => "1. write code") 0).plan ≠ [] :=
  negotiation_success_nonempty (fun _ => "1. write code") 0 (by omega)
    (fun j hj => absurd hj (Nat.not_lt_zero j)) rfl (by decide)

/-- The code's fallback capability, lower-cased, is exactly the amended
classification rule (the claim's rule plus the `"python"` keyword). -/
theorem fallbackAgentType_toLower (s : String) :
    pyLowerStr (fallbackAgentType s) = amendedCapabilityOf s := by
  unfold fallbackAgentType amendedCapabilityOf
  dsimp only
  split_ifs <;> rfl

/-- **C4, counterexample**.  The claim's classification rule maps the heading
`"1. use python"` to `casual` (no listed keyword occurs), but the code (line
173) also matches `"python"` and synthesizes a `Coder` task for it. -/
theorem fallback_python_heading_divergence :
    parse_agent_tasks "1. use python"
      = [("1. use python",
          { agent := "Coder", id := "1", task := "1. use python", need := some [] })]
    ∧ claimCapabilityOf "1. use python" = "casual"
    ∧ pyLowerStr "Coder" = "coder"
    ∧ ("coder" : String) ≠ "casual" := by
  exact ⟨rfl, rfl, rfl, by decide⟩

/-- **C4, amended**.  If decoding yields zero tasks and the extractor found at
least one heading line, fallback synthesis yields exactly one task per heading
line, in order: the description is the heading, the id is the 1-based position
as a string, the first task has empty dependencies and each later task depends
exactly on its predecessor's id, and the capability is the claim's
case-insensitive substring classification amended with `"python"` among the
coder keywords (`code`/`script`/`python` → coder; `search`/`web`/`internet` →
web; `file`/`folder` → file; default casual). -/
theorem fallback_synthesis_characterization :
    ∀ text : String, decodeStage text = [] → get_task_names text ≠ [] →
      (parse_agent_tasks text).length = (get_task_names text).length
      ∧ ∀ j, j < (get_task_names text).length →
          ∃ t : AgentTask,
            (parse_agent_tasks text).get? j = some (t.task, t)
            ∧ t.task = ((get_task_names text).get? j).getD ""
            ∧ pyLowerStr t.agent = amendedCapabilityOf (((get_task_names text).get? j).getD "")
            ∧ t.id = toString (j + 1)
            ∧ t.need = some (if j = 0 then [] else [toString j]) := by
  intro text hdec hnames
  have hpat : parse_agent_tasks text
      = (fallbackTasks (get_task_names text)).map (fun t => (t.task, t)) := by
    unfold parse_agent_tasks
    rw [hdec]
    simp [List.isEmpty_iff, hnames]
  constructor
  · rw [hpat]
    simp [fallbackTasks]
  · intro j hj
    have hnm : (get_task_names text).get? j
        = some ((get_task_names text).get ⟨j, hj⟩) := List.get?_eq_get hj
    set nm := (get_task_names text).get ⟨j, hj⟩ with hnmdef
    refine ⟨{ agent := fallbackAgentType nm
            , id := toString (j + 1)
            , task := nm
            , need := some (if j > 0 then [toString j] else []) }, ?_, ?_, ?_, ?_, ?_⟩
    · rw [hpat]
      simp only [fallbackTasks, List.map_map, List.get?_map, List.get?_enum, hnm,
        Option.map_some', Function.comp]
    · rw [hnm]; rfl
    · simp only [hnm, Option.getD_some]
      exact fallbackAgentType_toLower nm
    · rfl
    · rcases Nat.eq_zero_or_pos j with h0 | h0
      · subst h0; rfl
      · simp [h0, Nat.pos_iff_ne_zero.mp h0]

/-- Witness for `fallback_synthesis_characterization` at the claim's Scenario
B text: two heading lines, a web task then a casual one depending on it. -/
theorem fallback_synthesis_characterization_witness :
    (parse_agent_tasks "1. Search the web for X\n2. Summarize results").length
      = (get_task_names "1. Search the web for X\n2. Summarize results").length
    ∧ ∃ t : AgentTask,
        (parse_agent_tasks "1. Search the web for X\n2. Summarize results").get? 1
          = some (t.task, t)
        ∧ t.task = ((get_task_names "1. Search the web for X\n2. Summarize results").get? 1).getD ""
        ∧ pyLowerStr t.agent
            = amendedCapabilityOf
                (((get_task_names "1. Search the web for X\n2. Summarize results").get? 1).getD "")
        ∧ t.id = toString (1 + 1)
        ∧ t.need = some (if 1 = 0 then [] else [toString 1]) := by
  have h := fallback_synthesis_characterization
    "1. Search the web for X\n2. Summarize results" rfl (by decide)
  exact ⟨h.1, h.2 1 (by decide)⟩
